import Mathlib

set_option maxHeartbeats 1000000
set_option maxRecDepth 100000

/- Shallow embedding of src/PuReMath.py (a Telegram math-tutor bot).
   Strings are modeled as List Char.  Pure functions of the source become
   Lean functions; the regex substitutions of preprocess_math_text are
   embedded rule by rule; stateful components (response cache, rate
   limiter, question log) are embedded as explicit state passing; the
   external collaborators (Gemini backend, Telegram delivery, file
   system) are oracles supplied as parameters. -/

/-- The backslash character, the lead character of every LaTeX markup rule
in preprocess_math_text. -/
def bs : Char := '\\'

/-- The opening brace character. -/
def obr : Char := '\x7b'

/-- The closing brace character. -/
def cbr : Char := '\x7d'

/-- Convert a string literal to the List Char representation used
throughout this development. -/
def strL (s : String) : List Char := s.toList

/-- If pat is a leading segment of s, return the remainder of s after it;
otherwise fail.  This is the matcher for a literal regex fragment. -/
def dropPat : List Char → List Char → Option (List Char)
  | [], s => some s
  | _ :: _, [] => none
  | p :: ps, c :: cs => if p = c then dropPat ps cs else none

/-- Split a string at its first closing brace: returns the segment before
the brace (which contains no closing brace) and the remainder after it.
This is the matcher for the regex fragments matching a bracket group
(a greedy star over non-closing-brace characters followed by the brace,
as well as the non-greedy dot-star variant, which both stop at the
first closing brace). -/
def splitBrace : List Char → Option (List Char × List Char)
  | [] => none
  | c :: rest =>
    if c = cbr then some ([], rest)
    else
      match splitBrace rest with
      | some (a, b) => some (c :: a, b)
      | none => none

/-- ASCII word-character test, approximating the word class used by the
word-boundary assertions of the pmod and mod rules. -/
def isWordChar (c : Char) : Bool := c.isAlpha || c.isDigit || c = '_'

/-- One substitution rule of preprocess_math_text.  The five shapes cover
all the regular expressions appearing in the source:
a literal pattern, a literal pattern followed by a word boundary,
a literal head followed by a non-greedy dot-star and a closing brace
(the match is deleted), a literal head followed by one captured brace
group, and a literal head followed by two captured brace groups
(the fraction rule). -/
inductive Rule where
  | lit (pat rep : List Char)
  | litWb (pat rep : List Char)
  | dotStar (pre : List Char)
  | grp1 (pre : List Char) (mk : List Char → List Char)
  | grp2 (pre : List Char) (mk : List Char → List Char → List Char)

/-- The literal head that every match of a rule must begin with. -/
def rulePre : Rule → List Char
  | Rule.lit p _ => p
  | Rule.litWb p _ => p
  | Rule.dotStar p => p
  | Rule.grp1 p _ => p
  | Rule.grp2 p _ => p

/-- Try to match a rule at the start of s.  On success return the
replacement text and the remainder of s after the matched segment. -/
def matchRule : Rule → List Char → Option (List Char × List Char)
  | Rule.lit pat rep, s =>
    match dropPat pat s with
    | some r => some (rep, r)
    | none => none
  | Rule.litWb pat rep, s =>
    match dropPat pat s with
    | some [] => some (rep, [])
    | some (c :: r) => if isWordChar c then none else some (rep, c :: r)
    | none => none
  | Rule.dotStar pre, s =>
    match dropPat pre s with
    | some r =>
      match splitBrace r with
      | some (a, b) => if a.contains '\n' then none else some ([], b)
      | none => none
    | none => none
  | Rule.grp1 pre mk, s =>
    match dropPat pre s with
    | some r =>
      match splitBrace r with
      | some (g, b) => some (mk g, b)
      | none => none
    | none => none
  | Rule.grp2 pre mk, s =>
    match dropPat pre s with
    | some r =>
      match splitBrace r with
      | some (g1, r1) =>
        match r1 with
        | c :: r2 =>
          if c = obr then
            match splitBrace r2 with
            | some (g2, r3) => some (mk g1 g2, r3)
            | none => none
          else none
        | [] => none
      | none => none
    | none => none

/-- Apply one rule everywhere in the string, scanning left to right,
taking the leftmost matches and never rescanning replacement text: the
semantics of a single re.sub pass.  The fuel argument bounds the
recursion; since every match consumes at least one character, fuel equal
to the length of the string suffices. -/
def applyRuleAux (ru : Rule) : Nat → List Char → List Char
  | 0, s => s
  | _ + 1, [] => []
  | fuel + 1, c :: rest =>
    match matchRule ru (c :: rest) with
    | some (rep, rest2) => rep ++ applyRuleAux ru fuel rest2
    | none => c :: applyRuleAux ru fuel rest

/-- One full re.sub pass of a rule over a string. -/
def applyRule (ru : Rule) (s : List Char) : List Char :=
  applyRuleAux ru s.length s

/-- The ordered replacement table of preprocess_math_text, transliterated
rule by rule from the source. -/
def mathRules : List Rule := [
  Rule.litWb (strL "\\pmod") (strL " mod "),
  Rule.litWb (strL "\\mod") (strL " mod "),
  Rule.dotStar (strL "\\begin" ++ [obr]),
  Rule.dotStar (strL "\\end" ++ [obr]),
  Rule.grp1 (strL "\\boxed" ++ [obr]) (fun g => '[' :: (g ++ [']'])),
  Rule.grp1 (strL "\\text" ++ [obr]) (fun g => g),
  Rule.lit (strL "\\qquad") (strL "    "),
  Rule.lit (strL "\\quad") (strL "  "),
  Rule.lit (strL "\\,") (strL " "),
  Rule.lit (strL "\\ ") (strL " "),
  Rule.lit (strL "\\left\\" ++ [obr]) [obr],
  Rule.lit (strL "\\right\\" ++ [cbr]) [cbr],
  Rule.lit (strL "\\left(") (strL "("),
  Rule.lit (strL "\\right)") (strL ")"),
  Rule.lit (strL "\\left[") (strL "["),
  Rule.lit (strL "\\right]") (strL "]"),
  Rule.lit (strL "\\times") (strL "×"),
  Rule.lit (strL "\\div") (strL "÷"),
  Rule.lit (strL "\\leq") (strL "≤"),
  Rule.lit (strL "\\geq") (strL "≥"),
  Rule.lit (strL "\\neq") (strL "≠"),
  Rule.lit (strL "\\approx") (strL "≈"),
  Rule.lit (strL "\\pm") (strL "±"),
  Rule.lit (strL "\\to") (strL "→"),
  Rule.lit (strL "\\infty") (strL "∞"),
  Rule.lit (strL "\\sum") (strL "Σ"),
  Rule.lit (strL "\\prod") (strL "Π"),
  Rule.lit (strL "\\int") (strL "∫"),
  Rule.lit (strL "\\sqrt") (strL "√"),
  Rule.grp2 (strL "\\frac" ++ [obr]) (fun a b => a ++ '/' :: b),
  Rule.grp1 (strL "\\dot" ++ [obr]) (fun g => g ++ ['̇']),
  Rule.grp1 (strL "\\ddot" ++ [obr]) (fun g => g ++ ['̈']),
  Rule.grp1 (strL "\\hat" ++ [obr]) (fun g => g ++ ['̂']),
  Rule.grp1 (strL "\\tilde" ++ [obr]) (fun g => g ++ ['̃'])]

/-- The exponent-flattening rule applied after the table. -/
def expRule : Rule := Rule.grp1 ['^', obr] (fun g => '^' :: g)

/-- The subscript-flattening rule applied after the table. -/
def subRule : Rule := Rule.grp1 ['_', obr] (fun g => '_' :: g)

/-- ASCII whitespace test approximating the default character class of the
Python str.strip call. -/
def isPySpace (c : Char) : Bool :=
  c = ' ' || c = '\t' || c = '\n' || c = '\r' || c = '\x0b' || c = '\x0c'

/-- Remove leading and trailing whitespace: the str.strip call ending
preprocess_math_text. -/
def stripChars (s : List Char) : List Char :=
  List.rdropWhile isPySpace (List.dropWhile isPySpace s)

/-- The text normalizer of the source: apply the ordered replacement
table, then flatten exponent and subscript brace groups, then strip. -/
def preprocess_math_text (text : List Char) : List Char :=
  let t1 := List.foldl (fun t ru => applyRule ru t) text mathRules
  let t2 := applyRule expRule t1
  let t3 := applyRule subRule t2
  stripChars t3

/- ===================== Response cache ===================== -/

/-- CACHE_EXPIRY_DAYS of the source. -/
def CACHE_EXPIRY_DAYS : Nat := 7

/-- One cache entry: the stored response and the instant it was written.
Instants are modeled as natural-number seconds (the source stores an ISO
timestamp and compares datetime differences in whole days). -/
structure CacheEntry where
  response : List Char
  timestamp : Nat
deriving DecidableEq

/-- The in-memory cache dictionary: an association list from question
digest to entry; lookups take the most recent binding, as a dictionary
does. -/
abbrev CacheMap := List (List Char × CacheEntry)

/-- Modelled digest: the source computes the MD5 hex digest of the
UTF-8 encoded question.  MD5 is embedded as an injective content digest
(the spec assumes the digest is collision-free in practice and demands no
security property), so the digest of a string is represented by the
string itself; distinct raw questions have distinct digests. -/
def hashQuestion (question : List Char) : List Char := question

/-- Whole days elapsed between two instants, the quantity compared
against CACHE_EXPIRY_DAYS by the source. -/
def daysBetween (now ts : Nat) : Nat := (now - ts) / 86400

/-- Dictionary update: bind k to v, shadowing any previous binding. -/
def dictSet (k : List Char) (v : CacheEntry) (m : CacheMap) : CacheMap :=
  (k, v) :: m

/-- Contents of the persisted cache store: the real file's bytes and the
temporary file's bytes when one exists. -/
structure FSState where
  realFile : List Char
  tempFile : Option (List Char)
deriving DecidableEq

/-- A possible I/O failure during save_cache: the write of the temporary
file fails (leaving arbitrary partial bytes in it), or the atomic replace
fails. -/
inductive SaveErr where
  | failWrite (leftover : List Char)
  | failReplace
deriving DecidableEq

/-- Serialization of the cache map written by json.dump.  The claims do
not depend on the format; a concrete delimiter-based encoding stands in
for the JSON text. -/
def serializeCache (m : CacheMap) : List Char :=
  (m.map (fun p => p.1 ++ ':' :: p.2.response ++ '@' :: strL (Nat.repr p.2.timestamp) ++ [';'])).flatten

/-- ResponseCache.save_cache: write the serialized cache to the temporary
file, then atomically replace the real file with it (os.replace).  Any
I/O error is logged and swallowed: the function always returns normally,
and the in-memory cache is returned unchanged.  On a write failure the
temporary file holds partial bytes and the real file is untouched; on a
replace failure the temporary file holds the full serialization and the
real file is untouched.  The atomicity of os.replace itself is a
primitive of this model. -/
def save_cache (cache : CacheMap) (fs : FSState) (err : Option SaveErr) :
    FSState × CacheMap :=
  match err with
  | none => (⟨serializeCache cache, none⟩, cache)
  | some (SaveErr.failWrite leftover) => (⟨fs.realFile, some leftover⟩, cache)
  | some SaveErr.failReplace => (⟨fs.realFile, some (serializeCache cache)⟩, cache)

/-- The response cache: the in-memory dictionary plus the persisted
store. -/
structure ResponseCache where
  cache : CacheMap
  fs : FSState
deriving DecidableEq

/-- ResponseCache.get: digest the question, look the entry up, and return
the stored response only when its age in whole days is below
CACHE_EXPIRY_DAYS; otherwise report not-found.  The stale entry is not
removed. -/
def ResponseCache.get (rc : ResponseCache) (now : Nat) (question : List Char) :
    Option (List Char) :=
  match List.lookup (hashQuestion question) rc.cache with
  | some entry =>
    if daysBetween now entry.timestamp < CACHE_EXPIRY_DAYS then some entry.response
    else none
  | none => none

/-- ResponseCache.set: store the entry under the question digest with the
current instant as timestamp, then persist synchronously through
save_cache. -/
def ResponseCache.set (rc : ResponseCache) (now : Nat)
    (question response : List Char) (err : Option SaveErr) : ResponseCache :=
  let cache2 := dictSet (hashQuestion question) ⟨response, now⟩ rc.cache
  ⟨(save_cache cache2 rc.fs err).2, (save_cache cache2 rc.fs err).1⟩

/- ===================== Rate limiter ===================== -/

/-- RATE_LIMIT_PER_USER of the source. -/
def RATE_LIMIT_PER_USER : Nat := 5

/-- RateLimiter.check_rate_limit for one identity.  The state is the
identity's window: none when the identity has never been seen.  On the
first call the current instant is recorded and the call admitted.
Otherwise timestamps older than 60 seconds are pruned; if the pruned
window is at or above the quota the call is rejected without recording
it, else the current instant is appended and the call admitted.  Returns
the decision and the identity's new window.  Instants are natural-number
seconds (the source uses time.time; the pruning comparison agrees with
the float one on whole-second instants). -/
def check_rate_limit (st : Option (List Nat)) (now : Nat) : Bool × List Nat :=
  match st with
  | none => (true, [now])
  | some ts =>
    let pruned := ts.filter (fun t => now - t < 60)
    if RATE_LIMIT_PER_USER ≤ pruned.length then (false, pruned)
    else (true, pruned ++ [now])

/-- Run a sequence of check_rate_limit calls for one identity starting
from the never-seen state, collecting the decisions. -/
def runRateCalls (times : List Nat) : Option (List Nat) × List Bool :=
  times.foldl
    (fun acc now =>
      let r := check_rate_limit acc.1 now
      (some r.2, acc.2 ++ [r.1]))
    (none, [])

/- ===================== Model client ===================== -/

/-- MAX_RETRIES of the source. -/
def MAX_RETRIES : Nat := 3

/-- RETRY_DELAY of the source, in seconds. -/
def RETRY_DELAY : Nat := 2

/-- Result of one get_gemini_response call: the returned value, the
response cache afterwards, the backoff sleeps performed (in seconds, in
order), and the number of generate_content invocations made. -/
structure GeminiOutcome where
  result : Option (List Char)
  rc : ResponseCache
  sleeps : List Nat
  calls : Nat
deriving DecidableEq

/-- The retry loop of get_gemini_response over the list of remaining
attempt indices.  The backend oracle maps an attempt index to the
generate_content outcome: generated text or a raised error.  On non-empty
text: normalize it, store it in the cache (which persists), and return
the normalized text stripped.  On empty text: move to the next attempt
without sleeping; if attempts are exhausted the loop falls through and
the function returns none.  On an error: if this is not the last attempt,
sleep RETRY_DELAY * (attempt + 1) seconds and retry, else return none. -/
def geminiTry (backend : Nat → Except Unit (List Char)) (rc : ResponseCache)
    (now : Nat) (q : List Char) (err : Option SaveErr) :
    List Nat → List Nat → Nat → GeminiOutcome
  | [], sleeps, calls => ⟨none, rc, sleeps, calls⟩
  | attempt :: restAttempts, sleeps, calls =>
    match backend attempt with
    | Except.ok text =>
      if text.isEmpty then
        geminiTry backend rc now q err restAttempts sleeps (calls + 1)
      else
        let processed := preprocess_math_text text
        ⟨some (stripChars processed), rc.set now q processed err, sleeps, calls + 1⟩
    | Except.error _ =>
      if restAttempts.isEmpty then ⟨none, rc, sleeps, calls + 1⟩
      else
        geminiTry backend rc now q err restAttempts
          (sleeps ++ [RETRY_DELAY * (attempt + 1)]) (calls + 1)

/-- get_gemini_response: serve from the cache when the lookup yields a
non-empty string (the source tests the cached value for truthiness),
otherwise run the retry loop over attempts 0 .. MAX_RETRIES - 1. -/
def get_gemini_response (backend : Nat → Except Unit (List Char))
    (rc : ResponseCache) (now : Nat) (q : List Char) (err : Option SaveErr) :
    GeminiOutcome :=
  match rc.get now q with
  | some cached =>
    if cached.isEmpty then geminiTry backend rc now q err (List.range MAX_RETRIES) [] 0
    else ⟨some cached, rc, [], 0⟩
  | none => geminiTry backend rc now q err (List.range MAX_RETRIES) [] 0

/- ===================== Renderers ===================== -/

/-- Split a string on newline characters, keeping empty segments: the
str.split call of the image renderer. -/
def splitNl : List Char → List (List Char)
  | [] => [[]]
  | c :: rest =>
    match splitNl rest with
    | [] => [[]]
    | l :: ls => if c = '\n' then [] :: l :: ls else (c :: l) :: ls

/-- Join lines with newline characters. -/
def joinNl (ls : List (List Char)) : List Char :=
  List.intercalate ['\n'] ls

/-- The slicing loop of the image renderer, with a fuel argument
bounding the recursion; each step consumes at least one character, so
fuel equal to the length of the line suffices. -/
def chunksOf80Aux : Nat → List Char → List (List Char)
  | 0, _ => []
  | _ + 1, [] => []
  | fuel + 1, c :: rest => (c :: rest).take 80 :: chunksOf80Aux fuel ((c :: rest).drop 80)

/-- Cut a non-empty line into consecutive chunks of 80 characters (the
last chunk may be shorter): the slicing loop of the image renderer. -/
def chunksOf80 (l : List Char) : List (List Char) := chunksOf80Aux l.length l

/-- Wrap one line: lines longer than 80 characters are cut into chunks of
at most 80, shorter lines are kept whole. -/
def wrapLine (line : List Char) : List (List Char) :=
  if 80 < line.length then chunksOf80 line else [line]

/-- The wrapped_lines list built by render_math_to_image after
normalizing its input. -/
def imageWrappedLines (math_text : List Char) : List (List Char) :=
  (List.map wrapLine (splitNl (preprocess_math_text math_text))).flatten

/-- The text laid out by render_math_to_image: the input is normalized,
split into lines, hard-wrapped at 80 columns, and re-joined.  The
matplotlib drawing of this text is external. -/
def render_math_to_image_text (math_text : List Char) : List Char :=
  joinNl (imageWrappedLines math_text)

/-- The text laid out by render_math_to_pdf: the input is normalized and
nothing else is done to it — the PDF renderer performs no wrapping. -/
def render_math_to_pdf_text (math_text : List Char) : List Char :=
  preprocess_math_text math_text

/- ===================== Question log and dispatch ===================== -/

/-- One record of the persisted question log (save_question_to_json).
The response field stores the truncated response text, or none when no
response is logged. -/
structure LogRecord where
  chat_id : Int
  user_id : Int
  question : List Char
  response : Option (List Char)
  response_length : Nat
deriving DecidableEq

/-- Truncation applied by save_question_to_json: responses longer than
1000 characters are cut and suffixed with an ellipsis. -/
def truncateResponse (r : List Char) : List Char :=
  if 1000 < r.length then r.take 1000 ++ strL "..." else r

/-- save_question_to_json: append one record to the log (the source
rewrites the whole JSON file; log I/O failures are swallowed and are not
modeled here). -/
def save_question_to_json (log : List LogRecord) (chat_id user_id : Int)
    (question : List Char) (response : Option (List Char)) : List LogRecord :=
  log ++ [{ chat_id := chat_id, user_id := user_id, question := question,
            response := response.map truncateResponse,
            response_length := match response with | some r => r.length | none => 0 }]

/-- The user-facing status produced by process_math_question.  Each
constructor stands for one fixed message of the source: the throttling
notice, the fixed could-not-generate apology, the success status line
(which interpolates the elapsed seconds), and the degraded-success
notice that some outputs may not have been sent. -/
inductive BotMsg where
  | tooManyRequests
  | couldntGenerate
  | generatedOk
  | someOutputsFailed
deriving DecidableEq

/-- The delivery collaborators of one request: whether send_image
(sendPhoto) and send_pdf (sendDocument) report success. -/
structure DeliveryEnv where
  sendImageOk : Bool
  sendPdfOk : Bool
deriving DecidableEq

/-- The mutable state touched by process_math_question: the response
cache, the calling identity's rate window, and the question log. -/
structure BotState where
  rc : ResponseCache
  rl : Option (List Nat)
  log : List LogRecord
deriving DecidableEq

/-- Result of one process_math_question call: the returned success flag
and status, the state afterwards, whether the image and the document
deliveries were attempted, and how many backend invocations were made. -/
structure ProcOutcome where
  ok : Bool
  msg : BotMsg
  state : BotState
  sentImage : Bool
  sentPdf : Bool
  backendCalls : Nat
deriving DecidableEq

/-- process_math_question: admission check first (a rejection returns the
throttling notice and makes no backend call); then the model client; a
missing response or one shorter than 10 characters after stripping
returns the fixed could-not-generate apology without touching the log;
otherwise both artifacts are rendered and both deliveries attempted, the
interaction is appended to the log regardless of delivery success, and
the status reports full or degraded success.  The per-request timeout and
the worker pools of the source are concurrency plumbing outside this
model; renderer exceptions are not modeled (rendering here is the pure
text preparation, which is total). -/
def process_math_question (backend : Nat → Except Unit (List Char))
    (env : DeliveryEnv) (st : BotState) (now : Nat)
    (chat_id user_id : Int) (question : List Char) (err : Option SaveErr) :
    ProcOutcome :=
  let adm := check_rate_limit st.rl now
  if ¬ adm.1 then
    ⟨false, BotMsg.tooManyRequests, ⟨st.rc, some adm.2, st.log⟩, false, false, 0⟩
  else
    let g := get_gemini_response backend st.rc now question err
    let st1 : BotState := ⟨g.rc, some adm.2, st.log⟩
    match g.result with
    | none => ⟨false, BotMsg.couldntGenerate, st1, false, false, g.calls⟩
    | some response =>
      if (stripChars response).length < 10 then
        ⟨false, BotMsg.couldntGenerate, st1, false, false, g.calls⟩
      else
        let success := env.sendImageOk && env.sendPdfOk
        let log2 := save_question_to_json st1.log chat_id user_id question (some response)
        ⟨success, if success then BotMsg.generatedOk else BotMsg.someOutputsFailed,
          ⟨st1.rc, st1.rl, log2⟩, true, true, g.calls⟩

/- ===================== Concrete inputs ===================== -/

/-- A nested exponent group, written with explicit brace characters. -/
def ceNested : List Char := ['^', obr, 'a', '^', obr, 'b', cbr, cbr]

/-- A raw question carrying a spacing-markup token. -/
def q1raw : List Char := strL "\\quad x"

/-- A raw question that is the normal form of q1raw. -/
def q2raw : List Char := strL "x"

/-- A single line of 81 identical characters. -/
def ce81 : List Char := List.replicate 81 'a'

/-- An empty response cache over an empty persisted store. -/
def rc0 : ResponseCache := ⟨[], ⟨[], none⟩⟩

/-- A fresh bot state: empty cache, never-seen identity, empty log. -/
def st0 : BotState := ⟨rc0, none, []⟩

/-- A backend that raises on every attempt. -/
def backendFail : Nat → Except Unit (List Char) := fun _ => Except.error ()

/-- A backend that returns empty text on every attempt. -/
def backendEmpty : Nat → Except Unit (List Char) := fun _ => Except.ok []

/-- A backend that returns a short degenerate answer on every attempt. -/
def backendShort : Nat → Except Unit (List Char) := fun _ => Except.ok (strL "x = 5")

/-- A backend that returns a usable answer on every attempt. -/
def backendGood : Nat → Except Unit (List Char) :=
  fun _ => Except.ok (strL "Step 1: subtract 5 from both sides")

/- ===================== Helper lemmas ===================== -/

/-- save_cache never modifies the in-memory cache it is given. -/
lemma save_cache_snd (c : CacheMap) (fs : FSState) (err : Option SaveErr) :
    (save_cache c fs err).2 = c := by
  cases err with
  | none => rfl
  | some e => cases e <;> rfl

/-- The in-memory dictionary after ResponseCache.set. -/
lemma set_cache_eq (rc : ResponseCache) (now : Nat) (q r : List Char)
    (err : Option SaveErr) :
    (rc.set now q r err).cache = dictSet (hashQuestion q) ⟨r, now⟩ rc.cache := by
  simp [ResponseCache.set, save_cache_snd]

/-- A successful dropPat means every character of the pattern occurs in
the subject. -/
lemma dropPat_mem {pat s r : List Char} (h : dropPat pat s = some r) :
    ∀ c ∈ pat, c ∈ s := by
  induction pat generalizing s with
  | nil => intro c hc; exact absurd hc (by simp)
  | cons p ps ih =>
    cases s with
    | nil => exact absurd h (by simp [dropPat])
    | cons a as =>
      by_cases hpa : p = a
      · subst hpa
        rw [dropPat, if_pos rfl] at h
        intro c hc
        rcases List.mem_cons.mp hc with rfl | hc2
        · exact List.mem_cons_self _ _
        · exact List.mem_cons_of_mem _ (ih h c hc2)
      · rw [dropPat, if_neg hpa] at h
        exact absurd h (by simp)

/-- A rule cannot match a subject missing some character of the rule's
literal head. -/
lemma matchRule_none {ru : Rule} {s : List Char} {c : Char}
    (hc : c ∈ rulePre ru) (hs : c ∉ s) : matchRule ru s = none := by
  have hdp : dropPat (rulePre ru) s = none := by
    cases h : dropPat (rulePre ru) s with
    | none => rfl
    | some r => exact absurd (dropPat_mem h c hc) hs
  cases ru <;> simp [matchRule, rulePre] at hdp ⊢ <;> simp [hdp]

/-- A substitution pass is the identity on subjects missing some
character of the rule's literal head. -/
lemma applyRuleAux_nomem {ru : Rule} {c : Char} (hc : c ∈ rulePre ru) :
    ∀ (fuel : Nat) (s : List Char), c ∉ s → applyRuleAux ru fuel s = s := by
  intro fuel
  induction fuel with
  | zero => intro s _; rfl
  | succ n ih =>
    intro s hs
    cases s with
    | nil => rfl
    | cons a as =>
      rw [applyRuleAux, matchRule_none hc hs]
      rw [ih as (fun h => hs (List.mem_cons_of_mem _ h))]

/-- applyRule is the identity on subjects missing some character of the
rule's literal head. -/
lemma applyRule_nomem {ru : Rule} {c : Char} (hc : c ∈ rulePre ru)
    {s : List Char} (hs : c ∉ s) : applyRule ru s = s :=
  applyRuleAux_nomem hc s.length s hs

/-- A whole chain of substitution passes is the identity when some
character common to all the rules' literal heads is missing from the
subject. -/
lemma foldl_applyRule_nomem {c : Char} :
    ∀ (rules : List Rule) (s : List Char),
      (∀ ru ∈ rules, c ∈ rulePre ru) → c ∉ s →
      List.foldl (fun t ru => applyRule ru t) s rules = s := by
  intro rules
  induction rules with
  | nil => intro s _ _; rfl
  | cons r rs ih =>
    intro s hall hs
    have h1 : applyRule r s = s := applyRule_nomem (hall r (by simp)) hs
    rw [List.foldl_cons, h1]
    exact ih s (fun ru hru => hall ru (by simp [hru])) hs

/-- On text containing no backslash and no opening brace, the normalizer
reduces to the final strip. -/
lemma preprocess_eq_strip {s : List Char} (h1 : bs ∉ s) (h2 : obr ∉ s) :
    preprocess_math_text s = stripChars s := by
  have hm : ∀ ru ∈ mathRules, bs ∈ rulePre ru := by decide
  have he : obr ∈ rulePre expRule := by decide
  have hsu : obr ∈ rulePre subRule := by decide
  unfold preprocess_math_text
  show stripChars (applyRule subRule (applyRule expRule
    (List.foldl (fun t ru => applyRule ru t) s mathRules))) = stripChars s
  rw [foldl_applyRule_nomem mathRules s hm h1, applyRule_nomem he h2,
    applyRule_nomem hsu h2]

/-- Every character of the stripped text occurs in the original text. -/
lemma stripChars_subset {s : List Char} {c : Char} (h : c ∈ stripChars s) :
    c ∈ s := by
  unfold stripChars at h
  have h2 : c ∈ List.dropWhile isPySpace s :=
    (List.rdropWhile_prefix _ _).sublist.subset h
  exact (List.dropWhile_suffix _).sublist.subset h2

/-- The head surviving a dropWhile pass fails the predicate. -/
lemma dropWhile_head_false :
    ∀ (l c2 : List Char) (c : Char), List.dropWhile isPySpace l = c :: c2 →
      isPySpace c = false := by
  intro l
  induction l with
  | nil => intro c2 c h; simp [List.dropWhile] at h
  | cons a as ih =>
    intro c2 c h
    by_cases ha : isPySpace a
    · rw [List.dropWhile_cons, if_pos ha] at h
      exact ih c2 c h
    · rw [List.dropWhile_cons, if_neg ha] at h
      cases h
      simpa using ha

/-- Stripping is idempotent. -/
lemma stripChars_idem (s : List Char) : stripChars (stripChars s) = stripChars s := by
  unfold stripChars
  have hdw : List.dropWhile isPySpace
      (List.rdropWhile isPySpace (List.dropWhile isPySpace s)) =
      List.rdropWhile isPySpace (List.dropWhile isPySpace s) := by
    cases hv : List.rdropWhile isPySpace (List.dropWhile isPySpace s) with
    | nil => rfl
    | cons a v2 =>
      obtain ⟨t, ht⟩ := List.rdropWhile_prefix isPySpace (List.dropWhile isPySpace s)
      rw [hv] at ht
      have hfa : isPySpace a = false :=
        dropWhile_head_false s (v2 ++ t) a (by rw [← ht]; simp)
      rw [List.dropWhile_cons, if_neg (by simp [hfa])]
  rw [hdw, List.rdropWhile_idempotent]

/-- On a cache miss the model client runs the retry loop over attempts
0, 1, 2. -/
lemma gemini_miss_unfold {backend : Nat → Except Unit (List Char)}
    {rc : ResponseCache} {now : Nat} {q : List Char} {err : Option SaveErr}
    (hmiss : ResponseCache.get rc now q = none) :
    get_gemini_response backend rc now q err =
      geminiTry backend rc now q err [0, 1, 2] [] 0 := by
  unfold get_gemini_response
  rw [hmiss]
  rfl

/-- On a cache hit with a non-empty cached string the model client
returns the cached response without consulting the backend. -/
lemma gemini_hit {backend : Nat → Except Unit (List Char)}
    {rc : ResponseCache} {now : Nat} {q cached : List Char} {err : Option SaveErr}
    (hhit : ResponseCache.get rc now q = some cached) (hne : cached ≠ []) :
    get_gemini_response backend rc now q err = ⟨some cached, rc, [], 0⟩ := by
  unfold get_gemini_response
  rw [hhit]
  simp [List.isEmpty_iff, hne]

/-- When every attempt raises, the retry loop makes all three calls,
sleeps 2 then 4 seconds, and returns the not-available result with the
cache untouched. -/
lemma geminiTry_all_error {backend : Nat → Except Unit (List Char)}
    {rc : ResponseCache} {now : Nat} {q : List Char} {err : Option SaveErr}
    (hfail : ∀ i, backend i = Except.error ()) :
    geminiTry backend rc now q err [0, 1, 2] [] 0 = ⟨none, rc, [2, 4], 3⟩ := by
  simp [geminiTry, hfail 0, hfail 1, hfail 2, RETRY_DELAY]

/-- When every attempt returns empty text, the retry loop makes all
three calls, never sleeps, and returns the not-available result with the
cache untouched. -/
lemma geminiTry_all_empty {backend : Nat → Except Unit (List Char)}
    {rc : ResponseCache} {now : Nat} {q : List Char} {err : Option SaveErr}
    (hempty : ∀ i, backend i = Except.ok []) :
    geminiTry backend rc now q err [0, 1, 2] [] 0 = ⟨none, rc, [], 3⟩ := by
  simp [geminiTry, hempty 0, hempty 1, hempty 2]

/-- When the first attempt returns non-empty text, the loop normalizes
it, stores it in the cache, and returns the stripped normal form after a
single call. -/
lemma geminiTry_first_ok {backend : Nat → Except Unit (List Char)}
    {rc : ResponseCache} {now : Nat} {q t : List Char} {err : Option SaveErr}
    (hok : backend 0 = Except.ok t) (hne : t ≠ []) :
    geminiTry backend rc now q err [0, 1, 2] [] 0 =
      ⟨some (stripChars (preprocess_math_text t)),
        rc.set now q (preprocess_math_text t) err, [], 1⟩ := by
  simp [geminiTry, hok, List.isEmpty_iff, hne]

/-- Every chunk produced by the 80-column slicer has length at most 80. -/
lemma chunksOf80Aux_le :
    ∀ (n : Nat) (l : List Char), ∀ c ∈ chunksOf80Aux n l, c.length ≤ 80 := by
  intro n
  induction n with
  | zero => intro l c hc; simp [chunksOf80Aux] at hc
  | succ n ih =>
    intro l c hc
    cases l with
    | nil => simp [chunksOf80Aux] at hc
    | cons a as =>
      rw [chunksOf80Aux] at hc
      rcases List.mem_cons.mp hc with rfl | hc2
      · simp [List.length_take]
      · exact ih ((a :: as).drop 80) c hc2

/-- The 80-column slicer, given enough fuel, only cuts: concatenating
the chunks restores the line. -/
lemma chunksOf80Aux_flatten :
    ∀ (n : Nat) (l : List Char), l.length ≤ n →
      (chunksOf80Aux n l).flatten = l := by
  intro n
  induction n with
  | zero =>
    intro l hl
    have : l = [] := List.length_eq_zero.mp (Nat.le_zero.mp hl)
    subst this
    simp [chunksOf80Aux]
  | succ n ih =>
    intro l hl
    cases l with
    | nil => simp [chunksOf80Aux]
    | cons a as =>
      rw [chunksOf80Aux, List.flatten_cons,
        ih ((a :: as).drop 80) (by simp only [List.length_drop, List.length_cons] at hl ⊢; omega)]
      exact List.take_append_drop 80 (a :: as)

/-- Bounds for chunksOf80 itself. -/
lemma chunksOf80_le (l : List Char) : ∀ c ∈ chunksOf80 l, c.length ≤ 80 :=
  chunksOf80Aux_le l.length l

/-- Concatenating the chunks of a line restores the line. -/
lemma chunksOf80_flatten (l : List Char) : (chunksOf80 l).flatten = l :=
  chunksOf80Aux_flatten l.length l le_rfl

/- ===================== Claims ===================== -/

/-- C1 counterexample: preprocess_math_text is not idempotent on every
input.  On the nested exponent group written as a caret followed by the
group a-caret-group-b, one application flattens only the outer group and
a second application flattens the inner one, so applying the normalizer
twice differs from applying it once. -/
theorem C1_counterexample :
    preprocess_math_text (preprocess_math_text ceNested) ≠
      preprocess_math_text ceNested := by
  decide

/-- C1 amended: the text normalizer is idempotent on every string that
contains no backslash and no opening brace — that is, on any text free of
the source markup tokens the substitution rules consume, which includes
everything the normalizer is applied to downstream once markup has been
eliminated.  On such input the normalizer reduces to whitespace
stripping, which is idempotent. -/
theorem C1_amended_idempotent {s : List Char} (h1 : bs ∉ s) (h2 : obr ∉ s) :
    preprocess_math_text (preprocess_math_text s) = preprocess_math_text s := by
  have e1 : preprocess_math_text s = stripChars s := preprocess_eq_strip h1 h2
  have h1s : bs ∉ stripChars s := fun h => h1 (stripChars_subset h)
  have h2s : obr ∉ stripChars s := fun h => h2 (stripChars_subset h)
  rw [e1, preprocess_eq_strip h1s h2s, stripChars_idem]

/-- Witness for C1_amended_idempotent at a concrete markup-free string. -/
theorem C1_amended_witness :
    bs ∉ strL "  step 1: x = 5 " ∧ obr ∉ strL "  step 1: x = 5 " ∧
    preprocess_math_text (preprocess_math_text (strL "  step 1: x = 5 ")) =
      preprocess_math_text (strL "  step 1: x = 5 ") :=
  ⟨by decide, by decide, C1_amended_idempotent (by decide) (by decide)⟩

/-- C2: a set followed immediately by a get of the same question returns
the stored response; a get whose elapsed whole days reach the expiry
window reports not-found while the stale entry remains in the cache
dictionary (get never deletes). -/
theorem C2_cache_roundtrip_expiry (rc : ResponseCache) (now later : Nat)
    (q r : List Char) (err : Option SaveErr)
    (hstale : CACHE_EXPIRY_DAYS ≤ daysBetween later now) :
    ResponseCache.get (ResponseCache.set rc now q r err) now q = some r
    ∧ ResponseCache.get (ResponseCache.set rc now q r err) later q = none
    ∧ List.lookup (hashQuestion q) (ResponseCache.set rc now q r err).cache
        = some ⟨r, now⟩ := by
  have hlk : List.lookup (hashQuestion q) (ResponseCache.set rc now q r err).cache
      = some ⟨r, now⟩ := by
    rw [set_cache_eq]
    simp [dictSet, List.lookup]
  refine ⟨?_, ?_, hlk⟩
  · unfold ResponseCache.get
    rw [hlk]
    simp [daysBetween, CACHE_EXPIRY_DAYS]
  · unfold ResponseCache.get
    rw [hlk]
    simp only [Nat.not_lt.mpr hstale, if_false]

/-- Witness for C2_cache_roundtrip_expiry: a write at instant 0 is
served back at instant 0 and reported not-found 7 days later, while the
entry is still present. -/
theorem C2_witness :
    ResponseCache.get (ResponseCache.set rc0 0 q2raw (strL "an answer") none) 0 q2raw
      = some (strL "an answer")
    ∧ ResponseCache.get (ResponseCache.set rc0 0 q2raw (strL "an answer") none) 604800 q2raw
      = none
    ∧ List.lookup (hashQuestion q2raw)
        (ResponseCache.set rc0 0 q2raw (strL "an answer") none).cache
      = some ⟨strL "an answer", 0⟩ :=
  C2_cache_roundtrip_expiry rc0 0 604800 q2raw (strL "an answer") none (by decide)

/-- C3 counterexample: the cache is not keyed by a digest of the
normalized question.  Two raw questions with the same normal form —
a question carrying a quad spacing token and its markup-free normal
form — have distinct digests, and a set under the first followed by a
get under the second misses. -/
theorem C3_counterexample :
    preprocess_math_text q1raw = preprocess_math_text q2raw
    ∧ q1raw ≠ q2raw
    ∧ hashQuestion q1raw ≠ hashQuestion q2raw
    ∧ ResponseCache.get (ResponseCache.set rc0 0 q1raw (strL "an answer") none) 0 q2raw
        = none := by
  exact ⟨by decide, by decide, by decide, by decide⟩

/-- C3 amended: cache entries are keyed by a content digest of the raw
question string as received: the model client passes the raw user
question to both get and set, so after a first successful backend answer
the entry sits under the digest of the raw question, and two questions
address the same entry exactly when their raw strings are equal (the
digest is injective in this model, matching the spec's collision-free
assumption). -/
theorem C3_amended_raw_key (backend : Nat → Except Unit (List Char))
    (rc : ResponseCache) (now : Nat) (q t : List Char) (err : Option SaveErr)
    (hmiss : ResponseCache.get rc now q = none)
    (hok : backend 0 = Except.ok t) (hne : t ≠ []) :
    List.lookup (hashQuestion q) (get_gemini_response backend rc now q err).rc.cache
      = some ⟨preprocess_math_text t, now⟩
    ∧ ∀ q2 : List Char, (hashQuestion q2 = hashQuestion q ↔ q2 = q) := by
  refine ⟨?_, fun q2 => Iff.rfl⟩
  rw [gemini_miss_unfold hmiss, geminiTry_first_ok hok hne]
  rw [set_cache_eq]
  simp [dictSet, List.lookup]

/-- Witness for C3_amended_raw_key at a concrete question and backend. -/
theorem C3_amended_witness :
    List.lookup (hashQuestion q2raw)
        (get_gemini_response backendShort rc0 0 q2raw none).rc.cache
      = some ⟨preprocess_math_text (strL "x = 5"), 0⟩
    ∧ ∀ q2 : List Char, (hashQuestion q2 = hashQuestion q2raw ↔ q2 = q2raw) :=
  C3_amended_raw_key backendShort rc0 0 q2raw (strL "x = 5") none
    (by decide) rfl (by decide)

/-- C5: when the generative backend raises on every attempt, the model
client makes exactly MAX_RETRIES (3) calls, sleeping RETRY_DELAY times
the 1-based attempt number between consecutive attempts (2 seconds, then
4 seconds), and after exhausting the retries returns the not-available
result none — the embedding is a total function, so nothing is raised —
with the cache unchanged. -/
theorem C5_retry_backoff (backend : Nat → Except Unit (List Char))
    (rc : ResponseCache) (now : Nat) (q : List Char) (err : Option SaveErr)
    (hmiss : ResponseCache.get rc now q = none)
    (hfail : ∀ i, backend i = Except.error ()) :
    get_gemini_response backend rc now q err = ⟨none, rc, [2, 4], 3⟩ := by
  rw [gemini_miss_unfold hmiss, geminiTry_all_error hfail]

/-- Witness for C5_retry_backoff at a concrete always-failing backend. -/
theorem C5_witness :
    get_gemini_response backendFail rc0 0 q2raw none = ⟨none, rc0, [2, 4], 3⟩ :=
  C5_retry_backoff backendFail rc0 0 q2raw none (by decide) (fun _ => rfl)

/-- C7 counterexample: the renderers do not both hard-wrap long lines.
On a single 81-character line, the image renderer's prepared text has
every line at most 80 characters, but the document renderer's prepared
text still contains the 81-character line: the PDF renderer applies the
normalizer and performs no wrapping. -/
theorem C7_counterexample :
    (splitNl (render_math_to_pdf_text ce81)).all
        (fun l => decide (l.length ≤ 80)) = false
    ∧ (splitNl (render_math_to_image_text ce81)).all
        (fun l => decide (l.length ≤ 80)) = true := by
  exact ⟨by decide, by decide⟩

/-- C7 amended: the image renderer first applies the text normalizer and
hard-wraps every line longer than 80 characters into consecutive chunks
of at most 80 characters (cutting only — concatenating a line's chunks
restores the line); the document renderer applies the text normalizer
but performs no wrapping. -/
theorem C7_amended_wrap (t line l : List Char) (hl : l ∈ imageWrappedLines t) :
    render_math_to_pdf_text t = preprocess_math_text t
    ∧ render_math_to_image_text t = joinNl (imageWrappedLines t)
    ∧ l.length ≤ 80
    ∧ (wrapLine line).flatten = line := by
  refine ⟨rfl, rfl, ?_, ?_⟩
  · unfold imageWrappedLines at hl
    rcases List.mem_flatten.mp hl with ⟨w, hw, hlw⟩
    rcases List.mem_map.mp hw with ⟨line2, _, rfl⟩
    unfold wrapLine at hlw
    by_cases hlen : 80 < line2.length
    · rw [if_pos hlen] at hlw
      exact chunksOf80_le line2 l hlw
    · rw [if_neg hlen] at hlw
      rcases List.mem_singleton.mp hlw with rfl
      omega
  · unfold wrapLine
    by_cases hlen : 80 < line.length
    · rw [if_pos hlen]
      exact chunksOf80_flatten line
    · rw [if_neg hlen]
      simp

/-- Witness for C7_amended_wrap at the 81-character line: the first
image chunk is the 80-character piece. -/
theorem C7_amended_witness :
    render_math_to_pdf_text ce81 = preprocess_math_text ce81
    ∧ render_math_to_image_text ce81 = joinNl (imageWrappedLines ce81)
    ∧ (List.replicate 80 'a').length ≤ 80
    ∧ (wrapLine ce81).flatten = ce81 :=
  C7_amended_wrap ce81 ce81 (List.replicate 80 'a') (by decide)

/-- C8: cache persistence is atomic and failure-swallowing.  set updates
the dictionary and persists through save_cache, which writes the
serialization to the temporary file and atomically replaces the real
file with it: in every outcome the persisted store holds either its
previous contents or the complete new serialization, never a partial
write; an I/O failure at either step leaves the real file untouched and
the in-memory dictionary still updated (save_cache swallows the error
and returns normally — the embedding is a total function, so nothing
propagates); and with no failure the store holds exactly the new
serialization with the temporary file gone. -/
theorem C8_atomic_persistence (rc : ResponseCache) (now : Nat)
    (q r : List Char) (err : Option SaveErr) :
    ((rc.set now q r err).fs.realFile = rc.fs.realFile ∨
      (rc.set now q r err).fs.realFile = serializeCache ((rc.set now q r err).cache))
    ∧ (rc.set now q r err).cache = dictSet (hashQuestion q) ⟨r, now⟩ rc.cache
    ∧ (err = none →
        (rc.set now q r err).fs =
          ⟨serializeCache ((rc.set now q r err).cache), none⟩) := by
  refine ⟨?_, set_cache_eq rc now q r err, ?_⟩
  · cases err with
    | none => right; rfl
    | some e => cases e <;> (left; rfl)
  · rintro rfl
    rfl

/-- Witness for C8_atomic_persistence in the failure-free case. -/
theorem C8_witness :
    ((rc0.set 0 q2raw (strL "an answer") none).fs.realFile = rc0.fs.realFile ∨
      (rc0.set 0 q2raw (strL "an answer") none).fs.realFile =
        serializeCache ((rc0.set 0 q2raw (strL "an answer") none).cache))
    ∧ (rc0.set 0 q2raw (strL "an answer") none).cache =
        dictSet (hashQuestion q2raw) ⟨strL "an answer", 0⟩ rc0.cache
    ∧ (rc0.set 0 q2raw (strL "an answer") none).fs =
        ⟨serializeCache ((rc0.set 0 q2raw (strL "an answer") none).cache), none⟩ := by
  have h := C8_atomic_persistence rc0 0 q2raw (strL "an answer") none
  exact ⟨h.1, h.2.1, h.2.2 rfl⟩

/-- C4: the rate limiter admits exactly the quota within a rolling
60-second window.  For a known identity the check prunes every timestamp
60 or more seconds old; with the pruned window at or above the quota of
5 the call is rejected and the attempt not recorded (the window stays
the pruned list); below the quota the current instant is recorded and
the call admitted; when every recorded timestamp is 60 or more seconds
old, pruning empties the window and the call is admitted.  Consequently
on six calls inside one 60-second span starting from a fresh identity,
the first 5 are admitted and the 6th is rejected. -/
theorem C4_rate_limiter (ts : List Nat) (now t1 t2 t3 t4 t5 t6 : Nat)
    (h12 : t1 ≤ t2) (h23 : t2 ≤ t3) (h34 : t3 ≤ t4) (h45 : t4 ≤ t5)
    (h56 : t5 ≤ t6) (hwin : t6 - t1 < 60) :
    (RATE_LIMIT_PER_USER ≤ (ts.filter (fun t => now - t < 60)).length →
      check_rate_limit (some ts) now = (false, ts.filter (fun t => now - t < 60)))
    ∧ ((ts.filter (fun t => now - t < 60)).length < RATE_LIMIT_PER_USER →
      check_rate_limit (some ts) now =
        (true, ts.filter (fun t => now - t < 60) ++ [now]))
    ∧ ((∀ t ∈ ts, 60 ≤ now - t) → check_rate_limit (some ts) now = (true, [now]))
    ∧ (runRateCalls [t1, t2, t3, t4, t5, t6]).2 =
        [true, true, true, true, true, false] := by
  refine ⟨?_, ?_, ?_, ?_⟩
  · intro hq
    simp only [check_rate_limit, if_pos hq]
  · intro hq
    simp only [check_rate_limit, if_neg (Nat.not_le.mpr hq)]
  · intro hall
    have hfe : ts.filter (fun t => now - t < 60) = [] := by
      rw [List.filter_eq_nil_iff]
      intro t ht
      simpa using Nat.not_lt.mpr (hall t ht)
    simp only [check_rate_limit, hfe]
    rfl
  · have d2 : t2 - t1 < 60 := by omega
    have d31 : t3 - t1 < 60 := by omega
    have d32 : t3 - t2 < 60 := by omega
    have d41 : t4 - t1 < 60 := by omega
    have d42 : t4 - t2 < 60 := by omega
    have d43 : t4 - t3 < 60 := by omega
    have d51 : t5 - t1 < 60 := by omega
    have d52 : t5 - t2 < 60 := by omega
    have d53 : t5 - t3 < 60 := by omega
    have d54 : t5 - t4 < 60 := by omega
    have d61 : t6 - t1 < 60 := by omega
    have d62 : t6 - t2 < 60 := by omega
    have d63 : t6 - t3 < 60 := by omega
    have d64 : t6 - t4 < 60 := by omega
    have d65 : t6 - t5 < 60 := by omega
    have c1 : check_rate_limit none t1 = (true, [t1]) := rfl
    have c2 : check_rate_limit (some [t1]) t2 = (true, [t1, t2]) := by
      simp [check_rate_limit, RATE_LIMIT_PER_USER, d2]
    have c3 : check_rate_limit (some [t1, t2]) t3 = (true, [t1, t2, t3]) := by
      simp [check_rate_limit, RATE_LIMIT_PER_USER, d31, d32]
    have c4 : check_rate_limit (some [t1, t2, t3]) t4 = (true, [t1, t2, t3, t4]) := by
      simp [check_rate_limit, RATE_LIMIT_PER_USER, d41, d42, d43]
    have c5 : check_rate_limit (some [t1, t2, t3, t4]) t5 =
        (true, [t1, t2, t3, t4, t5]) := by
      simp [check_rate_limit, RATE_LIMIT_PER_USER, d51, d52, d53, d54]
    have c6 : check_rate_limit (some [t1, t2, t3, t4, t5]) t6 =
        (false, [t1, t2, t3, t4, t5]) := by
      simp [check_rate_limit, RATE_LIMIT_PER_USER, d61, d62, d63, d64, d65]
    simp only [runRateCalls, List.foldl_cons, List.foldl_nil, c1, c2, c3, c4, c5, c6]
    rfl

/-- Witness for C4_rate_limiter at concrete instants 0 .. 5 and a
concrete stale window. -/
theorem C4_witness :
    check_rate_limit (some [100, 200]) 300 = (true, [100, 200].filter (fun t => 300 - t < 60) ++ [300])
    ∧ check_rate_limit (some [10, 20]) 1000 = (true, [1000])
    ∧ (runRateCalls [0, 1, 2, 3, 4, 5]).2 = [true, true, true, true, true, false] := by
  have h := C4_rate_limiter [100, 200] 300 0 1 2 3 4 5 (by decide) (by decide)
    (by decide) (by decide) (by decide) (by decide)
  have h2 := C4_rate_limiter [10, 20] 1000 0 1 2 3 4 5 (by decide) (by decide)
    (by decide) (by decide) (by decide) (by decide)
  exact ⟨h.2.1 (by decide), h2.2.2.1 (by decide), h.2.2.2⟩

/-- C6: when the backend produces no usable answer — it raises on every
attempt, or returns empty text on every attempt, or its first answer is
non-empty but shorter than 10 characters after normalization and
trimming — the user receives the fixed could-not-generate message with
the failure flag, exactly the outcome of a backend failure; the log is
untouched; and in the all-empty case no cache entry is created. -/
theorem C6_no_usable_answer (backend : Nat → Except Unit (List Char))
    (env : DeliveryEnv) (st : BotState) (now : Nat) (chatId userId : Int)
    (q : List Char) (err : Option SaveErr)
    (hadm : (check_rate_limit st.rl now).1 = true)
    (hmiss : ResponseCache.get st.rc now q = none)
    (hbad : (∀ i, backend i = Except.error ()) ∨ (∀ i, backend i = Except.ok [])
      ∨ (∃ t, backend 0 = Except.ok t ∧ t ≠ [] ∧
          (stripChars (preprocess_math_text t)).length < 10)) :
    (process_math_question backend env st now chatId userId q err).msg
        = BotMsg.couldntGenerate
    ∧ (process_math_question backend env st now chatId userId q err).ok = false
    ∧ (process_math_question backend env st now chatId userId q err).state.log = st.log
    ∧ ((∀ i, backend i = Except.ok []) →
        (process_math_question backend env st now chatId userId q err).state.rc
          = st.rc) := by
  rcases hbad with hfail | hempty | ⟨t, hok, hne, hshort⟩
  · have hg : get_gemini_response backend st.rc now q err = ⟨none, st.rc, [2, 4], 3⟩ := by
      rw [gemini_miss_unfold hmiss, geminiTry_all_error hfail]
    simp [process_math_question, hadm, hg]
  · have hg : get_gemini_response backend st.rc now q err = ⟨none, st.rc, [], 3⟩ := by
      rw [gemini_miss_unfold hmiss, geminiTry_all_empty hempty]
    simp [process_math_question, hadm, hg]
  · have hg : get_gemini_response backend st.rc now q err =
        ⟨some (stripChars (preprocess_math_text t)),
          st.rc.set now q (preprocess_math_text t) err, [], 1⟩ := by
      rw [gemini_miss_unfold hmiss, geminiTry_first_ok hok hne]
    have hlt : (stripChars (stripChars (preprocess_math_text t))).length < 10 := by
      rw [stripChars_idem]
      exact hshort
    refine ⟨?_, ?_, ?_, ?_⟩
    · simp [process_math_question, hadm, hg, hlt]
    · simp [process_math_question, hadm, hg, hlt]
    · simp [process_math_question, hadm, hg, hlt]
    · intro hempty
      have h0 := hempty 0
      rw [hok] at h0
      cases h0
      exact absurd rfl hne

/-- Witness for C6_no_usable_answer: an always-empty backend on a fresh
state yields the could-not-generate outcome with the cache untouched. -/
theorem C6_witness :
    (process_math_question backendEmpty ⟨true, true⟩ st0 0 1 2 q2raw none).msg
        = BotMsg.couldntGenerate
    ∧ (process_math_question backendEmpty ⟨true, true⟩ st0 0 1 2 q2raw none).ok = false
    ∧ (process_math_question backendEmpty ⟨true, true⟩ st0 0 1 2 q2raw none).state.log
        = st0.log
    ∧ (process_math_question backendEmpty ⟨true, true⟩ st0 0 1 2 q2raw none).state.rc
        = st0.rc := by
  have h := C6_no_usable_answer backendEmpty ⟨true, true⟩ st0 0 1 2 q2raw none
    (by decide) (by decide) (Or.inr (Or.inl (fun _ => rfl)))
  exact ⟨h.1, h.2.1, h.2.2.1, h.2.2.2 (fun _ => rfl)⟩

/-- C9: once the model client yields a usable response (present and at
least 10 characters after trimming), both deliveries are attempted and
the interaction is appended to the persisted question log regardless of
delivery success; the returned flag is the conjunction of the two
delivery results, a failed delivery downgrades the status to the
degraded-success message, and two successful deliveries produce the
success status. -/
theorem C9_delivery_outcomes (backend : Nat → Except Unit (List Char))
    (env : DeliveryEnv) (st : BotState) (now : Nat) (chatId userId : Int)
    (q r : List Char) (err : Option SaveErr)
    (hadm : (check_rate_limit st.rl now).1 = true)
    (hr : (get_gemini_response backend st.rc now q err).result = some r)
    (hlen : 10 ≤ (stripChars r).length) :
    (process_math_question backend env st now chatId userId q err).sentImage = true
    ∧ (process_math_question backend env st now chatId userId q err).sentPdf = true
    ∧ (process_math_question backend env st now chatId userId q err).state.log
        = save_question_to_json st.log chatId userId q (some r)
    ∧ (process_math_question backend env st now chatId userId q err).ok
        = (env.sendImageOk && env.sendPdfOk)
    ∧ ((env.sendImageOk && env.sendPdfOk) = false →
        (process_math_question backend env st now chatId userId q err).msg
          = BotMsg.someOutputsFailed)
    ∧ ((env.sendImageOk && env.sendPdfOk) = true →
        (process_math_question backend env st now chatId userId q err).msg
          = BotMsg.generatedOk) := by
  have hnl : ¬ (stripChars r).length < 10 := Nat.not_lt.mpr hlen
  refine ⟨?_, ?_, ?_, ?_, ?_, ?_⟩
  · simp [process_math_question, hadm, hr, hnl]
  · simp [process_math_question, hadm, hr, hnl]
  · simp [process_math_question, hadm, hr, hnl]
  · simp [process_math_question, hadm, hr, hnl]
  · intro hh
    cases ha : env.sendImageOk <;> cases hb : env.sendPdfOk
    · simp [process_math_question, hadm, hr, hnl, ha, hb]
    · simp [process_math_question, hadm, hr, hnl, ha, hb]
    · simp [process_math_question, hadm, hr, hnl, ha, hb]
    · rw [ha, hb] at hh; simp at hh
  · intro hh
    cases ha : env.sendImageOk <;> cases hb : env.sendPdfOk
    · rw [ha, hb] at hh; simp at hh
    · rw [ha, hb] at hh; simp at hh
    · rw [ha, hb] at hh; simp at hh
    · simp [process_math_question, hadm, hr, hnl, ha, hb]

/-- Witness for C9_delivery_partial_success: a usable answer with a
failing image delivery gives the degraded-success outcome and still
appends to the log. -/
theorem C9_witness :
    (process_math_question backendGood ⟨false, true⟩ st0 0 1 2 q2raw none).sentImage = true
    ∧ (process_math_question backendGood ⟨false, true⟩ st0 0 1 2 q2raw none).sentPdf = true
    ∧ (process_math_question backendGood ⟨false, true⟩ st0 0 1 2 q2raw none).state.log
        = save_question_to_json st0.log 1 2 q2raw
            (some (strL "Step 1: subtract 5 from both sides"))
    ∧ (process_math_question backendGood ⟨false, true⟩ st0 0 1 2 q2raw none).ok
        = ((false : Bool) && true)
    ∧ (process_math_question backendGood ⟨false, true⟩ st0 0 1 2 q2raw none).msg
        = BotMsg.someOutputsFailed := by
  have h := C9_delivery_outcomes backendGood ⟨false, true⟩ st0 0 1 2 q2raw
    (strL "Step 1: subtract 5 from both sides") none (by decide) (by decide) (by decide)
  exact ⟨h.1, h.2.1, h.2.2.1, h.2.2.2.1, h.2.2.2.2.1 rfl⟩

/-- C10: a backend answer that is non-empty but shorter than 10
characters after normalization and trimming is normalized, stored in the
cache under the raw question, and persisted, all before the downstream
length check rejects it with the could-not-generate message; a second
submission of the same question while the entry is fresh is answered
from the cache without any backend invocation and again produces the
could-not-generate outcome. -/
theorem C10_degenerate_cached (backend backend2 : Nat → Except Unit (List Char))
    (env env2 : DeliveryEnv) (st : BotState) (now now2 : Nat)
    (chatId userId chatId2 userId2 : Int) (q t : List Char)
    (hadm : (check_rate_limit st.rl now).1 = true)
    (hmiss : ResponseCache.get st.rc now q = none)
    (hok : backend 0 = Except.ok t) (hne : t ≠ [])
    (hpne : preprocess_math_text t ≠ [])
    (hshort : (stripChars (preprocess_math_text t)).length < 10)
    (hadm2 : (check_rate_limit
        (process_math_question backend env st now chatId userId q none).state.rl
        now2).1 = true)
    (hfresh : daysBetween now2 now < CACHE_EXPIRY_DAYS) :
    (process_math_question backend env st now chatId userId q none).msg
        = BotMsg.couldntGenerate
    ∧ List.lookup (hashQuestion q)
        (process_math_question backend env st now chatId userId q none).state.rc.cache
        = some ⟨preprocess_math_text t, now⟩
    ∧ (process_math_question backend env st now chatId userId q none).state.rc.fs
        = ⟨serializeCache
            (process_math_question backend env st now chatId userId q none).state.rc.cache,
           none⟩
    ∧ (process_math_question backend2 env2
        (process_math_question backend env st now chatId userId q none).state
        now2 chatId2 userId2 q none).msg = BotMsg.couldntGenerate
    ∧ (process_math_question backend2 env2
        (process_math_question backend env st now chatId userId q none).state
        now2 chatId2 userId2 q none).backendCalls = 0 := by
  have hg : get_gemini_response backend st.rc now q none =
      ⟨some (stripChars (preprocess_math_text t)),
        st.rc.set now q (preprocess_math_text t) none, [], 1⟩ := by
    rw [gemini_miss_unfold hmiss, geminiTry_first_ok hok hne]
  have hlt : (stripChars (stripChars (preprocess_math_text t))).length < 10 := by
    rw [stripChars_idem]
    exact hshort
  have hout1 : process_math_question backend env st now chatId userId q none =
      ⟨false, BotMsg.couldntGenerate,
        ⟨st.rc.set now q (preprocess_math_text t) none,
          some (check_rate_limit st.rl now).2, st.log⟩, false, false, 1⟩ := by
    simp [process_math_question, hadm, hg, hlt]
  have hlk : List.lookup (hashQuestion q)
      (process_math_question backend env st now chatId userId q none).state.rc.cache
      = some ⟨preprocess_math_text t, now⟩ := by
    rw [hout1, set_cache_eq]
    simp [dictSet, List.lookup]
  have hhit2 : ResponseCache.get (st.rc.set now q (preprocess_math_text t) none)
      now2 q = some (preprocess_math_text t) := by
    unfold ResponseCache.get
    rw [set_cache_eq]
    simp [dictSet, List.lookup, hfresh]
  have hg2 : get_gemini_response backend2
      (st.rc.set now q (preprocess_math_text t) none) now2 q none =
      ⟨some (preprocess_math_text t),
        st.rc.set now q (preprocess_math_text t) none, [], 0⟩ :=
    gemini_hit hhit2 hpne
  rw [hout1] at hadm2
  refine ⟨?_, hlk, ?_, ?_, ?_⟩
  · rw [hout1]
  · rw [hout1]
    simp [ResponseCache.set, save_cache]
  · rw [hout1]
    simp [process_math_question, hadm2, hg2, hshort]
  · rw [hout1]
    simp [process_math_question, hadm2, hg2, hshort]

/-- Witness for C10_degenerate_cached: a concrete 5-character backend
answer is cached and persisted, and the immediate resubmission is served
the degenerate answer from the cache with zero backend calls. -/
theorem C10_witness :
    (process_math_question backendShort ⟨true, true⟩ st0 0 1 2 q2raw none).msg
        = BotMsg.couldntGenerate
    ∧ List.lookup (hashQuestion q2raw)
        (process_math_question backendShort ⟨true, true⟩ st0 0 1 2 q2raw none).state.rc.cache
        = some ⟨preprocess_math_text (strL "x = 5"), 0⟩
    ∧ (process_math_question backendShort ⟨true, true⟩ st0 0 1 2 q2raw none).state.rc.fs
        = ⟨serializeCache
            (process_math_question backendShort ⟨true, true⟩ st0 0 1 2 q2raw none).state.rc.cache,
           none⟩
    ∧ (process_math_question backendFail ⟨true, true⟩
        (process_math_question backendShort ⟨true, true⟩ st0 0 1 2 q2raw none).state
        1 3 4 q2raw none).msg = BotMsg.couldntGenerate
    ∧ (process_math_question backendFail ⟨true, true⟩
        (process_math_question backendShort ⟨true, true⟩ st0 0 1 2 q2raw none).state
        1 3 4 q2raw none).backendCalls = 0 :=
  C10_degenerate_cached backendShort backendFail ⟨true, true⟩ ⟨true, true⟩ st0 0 1
    1 2 3 4 q2raw (strL "x = 5") (by decide) (by decide) rfl (by decide)
    (by decide) (by decide) (by decide) (by decide)
